import Mathlib

/-!
Verification development for the article-content-extraction and
paywall-detection pipeline of the Media-Monitoring-and-Analysis repository.

The Python sources embedded here (shallowly, over `List Char` strings and a
`Node` tree standing for parsed HTML) are:
  * `articles_data_ET.py`   (namespace `ET`),
  * `ET_news_integrated.py` (namespace `INT`),
  * `fetch_news_articles.py` (namespace `FNA`).
-/

set_option maxHeartbeats 2000000
set_option maxRecDepth 4000

/-- Strings are modelled as lists of characters (Python `str`). -/
abbrev Str := List Char

/-- Convert a Lean string literal into the model's string type. -/
def strL (s : String) : Str := s.toList

/-- The whitespace class used by Python's `str.strip()` and the regex `\s`
on the ASCII range. -/
def isSp (c : Char) : Bool :=
  c == ' ' || c == '\t' || c == '\n' || c == '\r' || c == '\x0b' || c == '\x0c'

/-- Remove trailing whitespace. -/
def dropTrail (s : Str) : Str := (s.reverse.dropWhile isSp).reverse

/-- Python `str.strip()`: remove leading and trailing whitespace. -/
def stripChars (s : Str) : Str := dropTrail (s.dropWhile isSp)

/-- Worker for `collapseWs`; the flag records whether the previous input
character was whitespace (in which case further whitespace is skipped). -/
def collapseAux : Bool → Str → Str
  | _, [] => []
  | inWs, c :: t =>
    if isSp c then
      if inWs then collapseAux true t
      else ' ' :: collapseAux true t
    else c :: collapseAux false t

/-- The effect of `re.sub(r'\s+', ' ', text)`: every maximal run of
whitespace characters is replaced by a single space. -/
def collapseWs (s : Str) : Str := collapseAux false s

/-- The character replacement `text.replace('\n',' ').replace('\r',' ').replace('\t',' ')`. -/
def replNl (c : Char) : Char :=
  if c == '\n' || c == '\r' || c == '\t' then ' ' else c

/-- `clean_text` from `articles_data_ET.py` (the same function appears
verbatim in `ET_news_integrated.py` and `fetch_news_articles.py`):
empty input is returned as is, otherwise the text is stripped, whitespace
runs are collapsed to single spaces, and newline/carriage-return/tab
characters are replaced by spaces. -/
def clean_text (text : Str) : Str :=
  if text.isEmpty then []
  else (collapseWs (stripChars text)).map replNl

/-- Python `pat in s`: `pat` occurs as a contiguous substring of `s`. -/
def hasSub (pat : Str) : Str → Bool
  | [] => pat.isEmpty
  | c :: t => pat.isPrefixOf (c :: t) || hasSub pat t

/-- Python `s.split(pat)[0]`: the part of `s` strictly before the first
occurrence of `pat`, or `s` itself when `pat` does not occur. -/
def cutAt (pat : Str) : Str → Str
  | [] => []
  | c :: t => if pat.isPrefixOf (c :: t) then [] else c :: cutAt pat t

/-- The boilerplate-removal loop shared by all three scrapers:
`for text in self.boilerplate_text: if text in content: content = content.split(text)[0]`. -/
def stripBoiler (phrases : List Str) (content : Str) : Str :=
  phrases.foldl (fun c p => if hasSub p c then cutAt p c else c) content

/-- Index of the first occurrence of `pat` in `s` (if any). -/
def firstIdx (pat : Str) : Str → Option Nat
  | [] => if pat.isEmpty then some 0 else none
  | c :: t => if pat.isPrefixOf (c :: t) then some 0 else (firstIdx pat t).map (· + 1)

/-- Python `s.lower()` on the ASCII range. -/
def lowerStr (s : Str) : Str := s.map Char.toLower


inductive Node where
  | elem (tag : Str) (classes : List Str) (idAttr : Option Str) (children : List Node)
  | text (s : Str)

mutual
def textsOf : Node → List Str
  | .text s => [s]
  | .elem _ _ _ ch => textsOfL ch
def textsOfL : List Node → List Str
  | [] => []
  | n :: ns => textsOf n ++ textsOfL ns
end


/-- The tag of an element node (text nodes have no tag and yield `[]`,
so tag filters never match them, as in BeautifulSoup). -/
def elemTag : Node → Str
  | .elem t _ _ _ => t
  | .text _ => []

/-- The multi-valued `class` attribute of an element node. -/
def elemClasses : Node → List Str
  | .elem _ c _ _ => c
  | .text _ => []

/-- The `id` attribute of an element node. -/
def elemId : Node → Option Str
  | .elem _ _ i _ => i
  | .text _ => none

/-- The children of a node. -/
def childrenOf : Node → List Node
  | .elem _ _ _ ch => ch
  | .text _ => []

mutual
/-- All element nodes of a subtree (the node itself included when it is an
element), in BeautifulSoup's document order (pre-order). -/
def elemsOf : Node → List Node
  | .text _ => []
  | .elem t c i ch => .elem t c i ch :: elemsOfL ch
def elemsOfL : List Node → List Node
  | [] => []
  | n :: ns => elemsOf n ++ elemsOfL ns
end

/-- Element nodes strictly below a node — the search space of
`element.find_all(...)`, which excludes the element itself. -/
def descElems (n : Node) : List Node := elemsOfL (childrenOf n)

/-- `soup.get_text()`: concatenation of all text nodes in document order. -/
def getTextRaw (n : Node) : Str := (textsOf n).flatten

/-- Join a list of strings with a separator (Python `sep.join`). -/
def joinSep (sep : Str) : List Str → Str
  | [] => []
  | [s] => s
  | s :: rest => s ++ sep ++ joinSep sep rest

/-- `element.get_text(separator=' ', strip=True)`: each text node is
stripped, empty ones are dropped, the rest are joined with single spaces. -/
def getTextSepStrip (n : Node) : Str :=
  joinSep [' '] (((textsOf n).map stripChars).filter (fun s => !s.isEmpty))

/-- `get_text(separator=' ', strip=True)` over a list of root nodes. -/
def getTextSepStripL (l : List Node) : Str :=
  joinSep [' '] (((textsOfL l).map stripChars).filter (fun s => !s.isEmpty))

/-- `soup.find(tagname)` / `soup.find(class_=...)` etc. restricted to element
nodes: the first element of the document, in document order, satisfying the
filter. -/
def findElem (p : Node → Bool) (doc : List Node) : Option Node :=
  (elemsOfL doc).find? p

/-- Filter matching `soup.find(tag)` for an exact tag name. -/
def tagIs (t : Str) (n : Node) : Bool := elemTag n == t

/-- Filter matching `soup.find(class_=c)` for a single class string: the
element's (multi-valued) class attribute contains that exact string. -/
def classHas (c : Str) (n : Node) : Bool := (elemClasses n).contains c

/-- Filter matching `soup.find(class_=[c1, c2, ...])`: the element carries
any one of the listed class strings. -/
def classHasAny (cs : List Str) (n : Node) : Bool :=
  cs.any (fun c => (elemClasses n).contains c)

/-- Filter matching `soup.find(class_=lambda c: c and sub in c)`: some class
string of the element contains `sub` as a substring. -/
def classHasSub (sub : Str) (n : Node) : Bool :=
  (elemClasses n).any (fun c => hasSub sub c)

/-- BeautifulSoup's `tag.string`: the unique string of a tag that has a
single child, following single-child tags recursively. -/
def nodeStr : Node → Option Str
  | .text s => some s
  | .elem _ _ _ [c] => nodeStr c
  | .elem _ _ _ _ => none


mutual
/-- Remove every descendant (not the node itself) matching `p`, together
with its subtree: the effect of
`for unwanted in element.find_all(...): unwanted.decompose()`
(the `find_all` result list is materialised before any `decompose`, so
decomposing an outer match also discards nested matches). -/
def pruneDesc (p : Node → Bool) : Node → Node
  | .text s => .text s
  | .elem t c i ch => .elem t c i (pruneDescL p ch)
def pruneDescL (p : Node → Bool) : List Node → List Node
  | [] => []
  | n :: ns => (if p n then [] else [pruneDesc p n]) ++ pruneDescL p ns
end

/-- Remove every node of a node list (roots included) matching `p`: the
effect of `find_all` + `decompose` on a whole parsed document. -/
def removeAllL (p : Node → Bool) (l : List Node) : List Node := pruneDescL p l

mutual
/-- Remove the first node (in document order) matching `p`: the effect of
`elem = doc.find(...); if elem: elem.decompose()`. The Boolean records
whether a removal happened. -/
def remove1 (p : Node → Bool) : Node → List Node × Bool
  | .text s => ([.text s], false)
  | .elem t c i ch =>
    if p (.elem t c i ch) then ([], true)
    else
      let r := remove1L p ch
      ([.elem t c i r.1], r.2)
def remove1L (p : Node → Bool) : List Node → List Node × Bool
  | [] => ([], false)
  | n :: ns =>
    let r := remove1 p n
    if r.2 then (r.1 ++ ns, true)
    else
      let rs := remove1L p ns
      (r.1 ++ rs.1, rs.2)
end

mutual
/-- Find the first element (in document order) matching `p` and replace it
in place by `f` of it; returns the matched element together with the updated
document. This models `articles_data_ET.py`'s in-place `decompose` calls:
`_process_content_element` mutates the located element inside the soup, and
subsequent cascade steps search the mutated soup. -/
def findRepl (p : Node → Bool) (f : Node → Node) : Node → Option (Node × Node)
  | .text _ => none
  | .elem t c i ch =>
    if p (.elem t c i ch) then some (.elem t c i ch, f (.elem t c i ch))
    else
      match findReplL p f ch with
      | some (e, ch') => some (e, .elem t c i ch')
      | none => none
def findReplL (p : Node → Bool) (f : Node → Node) : List Node → Option (Node × List Node)
  | [] => none
  | n :: ns =>
    match findRepl p f n with
    | some (e, n') => some (e, n' :: ns)
    | none =>
      match findReplL p f ns with
      | some (e, ns') => some (e, n :: ns')
      | none => none
end

namespace ET

/-- `ArticleScraper.boilerplate_text` from `articles_data_ET.py`. -/
def boilerplate_text : List Str :=
  [ strL "Catch all the US News",
    strL "Download The Economic Times News App",
    strL "You can now subscribe to our Economic Times WhatsApp channel",
    strL "Disclaimer Statement:",
    strL "Read More News on",
    strL "Prime Exclusives",
    strL "Investment Ideas",
    strL "View all Stories",
    strL "(You can now subscribe to our",
    strL "Read More News on" ]

/-- The `paywall_indicators` list of `ArticleScraper.is_paywall_page`. -/
def paywall_indicators : List Str :=
  [strL "articleBlocker", strL "paywall_box", strL "prime_paywall", strL "subscribeBtn"]

/-- `ArticleScraper.is_paywall_page`: an explicit indicator class wins,
otherwise the page is paywalled iff the best-effort article container
(first element with class `artText`/`article-text`/`article_content`, else
the first `article` tag) is absent or its stripped text is at most 200
characters long. -/
def is_paywall_page (doc : List Node) : Bool :=
  if paywall_indicators.any (fun ind => (findElem (classHas ind) doc).isSome) then
    true
  else
    match (findElem (classHasAny [strL "artText", strL "article-text", strL "article_content"]) doc).or
        (findElem (tagIs (strL "article")) doc) with
    | none => true
    | some e => !(decide (200 < (stripChars (getTextRaw e)).length))

/-- The removal filter of `ArticleScraper._process_content_element`:
`find_all(['script', 'style', 'noscript', 'div'])` restricted to elements
whose class list contains one of the noise class names (exact match,
`c in ['flt', 'ads', ...]`). -/
def unwantedPred (n : Node) : Bool :=
  [strL "script", strL "style", strL "noscript", strL "div"].contains (elemTag n)
    && (elemClasses n).any (fun c =>
        [strL "flt", strL "ads", strL "footer", strL "disclaimer",
         strL "prime", strL "paywall"].contains c)

/-- The text-level tail of `ArticleScraper._process_content_element`:
boilerplate phrases are cut, then the text is cleaned. -/
def sanitizeText (s : Str) : Str := clean_text (stripBoiler boilerplate_text s)

/-- `ArticleScraper._process_content_element`: prune unwanted descendants,
extract space-separated stripped text, cut boilerplate, clean whitespace and
accept the result only when strictly longer than 200 characters. -/
def _process_content_element (e : Node) : Option Str :=
  let content := sanitizeText (getTextSepStrip (pruneDesc unwantedPred e))
  if 200 < content.length then some content else none

/-- One cascade step of `ArticleScraper.extract_article_content`: locate the
first element matching `p`; processing it prunes it in place, so the step
returns the possibly-mutated document for the following steps. -/
def tryStep (p : Node → Bool) (doc : List Node) : Option Str × List Node :=
  match findReplL p (pruneDesc unwantedPred) doc with
  | none => (none, doc)
  | some (e, doc') => (_process_content_element e, doc')

/-- The selector cascade of `ArticleScraper.extract_article_content`: the
`article` tag first, then the four class selectors, each tagged with the
`extraction_method` string the code reports. -/
def cascadeSteps : List ((Node → Bool) × Str) :=
  [ (tagIs (strL "article"), strL "article tag"),
    (classHas (strL "artText"), strL "class: artText"),
    (classHas (strL "article_wrap"), strL "class: article_wrap"),
    (classHas (strL "article-content"), strL "class: article-content"),
    (classHas (strL "story-details"), strL "class: story-details") ]

/-- Run the cascade: the first step whose located element yields accepted
content wins; steps that locate nothing, or whose content is rejected,
fall through (carrying the mutated document along). -/
def cascadeGo : List ((Node → Bool) × Str) → List Node → Option (Str × Str)
  | [], _ => none
  | (p, nm) :: rest, doc =>
    match tryStep p doc with
    | (some c, _) => some (c, nm)
    | (none, doc') => cascadeGo rest doc'

/-- `ArticleScraper.extract_article_content`. -/
def extract_article_content (doc : List Node) : Option (Str × Str) :=
  cascadeGo cascadeSteps doc

end ET


namespace INT

/-- `ETNewsScraper.boilerplate_text` from `ET_news_integrated.py` (the same
ten phrases as `articles_data_ET.py`). -/
def boilerplate_text : List Str := ET.boilerplate_text

/-- The `paywall_indicators` list of `ETNewsScraper.is_paywall_page`;
matched as substrings of class strings (`lambda c: c and indicator in c`). -/
def paywall_indicators : List Str :=
  [ strL "articleBlocker", strL "paywall_box", strL "prime_paywall",
    strL "subscribeBtn", strL "paywall", strL "subscription-required",
    strL "premium-content" ]

/-- The `paywall_texts` list of `ETNewsScraper.is_paywall_page`; matched as
substrings of text nodes (`lambda s: s and text in s`). -/
def paywall_texts : List Str :=
  [ strL "Subscribe to read",
    strL "Subscribe to continue reading",
    strL "This article is exclusively for subscribers",
    strL "To read the full article, subscribe",
    strL "Subscribe to ET Prime",
    strL "This article is locked" ]

/-- `ETNewsScraper.is_paywall_page`: class-substring indicators, paywall
text phrases, an id containing `paywall` (case-insensitively), or a button
whose string mentions subscribing or signing in. When none of these explicit
markers matches, the function returns `false` — it has no content-length
fallback. -/
def is_paywall_page (doc : List Node) : Bool :=
  if paywall_indicators.any (fun ind => (findElem (classHasSub ind) doc).isSome) then
    true
  else if paywall_texts.any (fun t => (textsOfL doc).any (fun s => hasSub t s)) then
    true
  else if (findElem (fun e =>
      match elemId e with
      | some i => hasSub (strL "paywall") (lowerStr i)
      | none => false) doc).isSome then
    true
  else if (findElem (fun e =>
      tagIs (strL "button") e &&
      match nodeStr e with
      | some s => hasSub (strL "subscribe") (lowerStr s) || hasSub (strL "sign in") (lowerStr s)
      | none => false) doc).isSome then
    true
  else
    false

/-- The `unwanted_classes` list of `ETNewsScraper._process_content_element`;
matched as substrings of class strings. -/
def unwanted_classes : List Str :=
  [
    strL "flt",
    strL "ads",
    strL "footer",
    strL "disclaimer",
    strL "prime",
    strL "paywall",
    strL "social-share",
    strL "related-articles",
    strL "recommended",
    strL "sidebar",
    strL "advertisement",
    strL "ad-container",
    strL "ad-wrapper",
    strL "advertisement-container",
    strL "social-media",
    strL "share-buttons",
    strL "comments",
    strL "comment-section",
    strL "newsletter",
    strL "subscription",
    strL "subscribe",
    strL "sign-up",
    strL "signup",
    strL "cookie-notice",
    strL "cookie-banner",
    strL "cookie-policy",
    strL "cookie-consent",
    strL "newsletter-signup",
    strL "newsletter-form",
    strL "newsletter-container",
    strL "newsletter-wrapper",
    strL "newsletter-box",
    strL "newsletter-banner",
    strL "newsletter-popup",
    strL "newsletter-modal",
    strL "newsletter-dialog",
    strL "newsletter-overlay",
    strL "newsletter-backdrop",
    strL "newsletter-close",
    strL "newsletter-close-button",
    strL "newsletter-close-btn",
    strL "newsletter-dismiss",
    strL "newsletter-dismiss-button",
    strL "newsletter-dismiss-btn",
    strL "newsletter-hide",
    strL "newsletter-hide-button",
    strL "newsletter-hide-btn",
    strL "newsletter-remove",
    strL "newsletter-remove-button",
    strL "newsletter-remove-btn",
    strL "newsletter-exit",
    strL "newsletter-exit-button",
    strL "newsletter-exit-btn",
    strL "newsletter-close-icon",
    strL "newsletter-close-x",
    strL "newsletter-close-times",
    strL "newsletter-close-times-icon",
    strL "newsletter-close-times-x",
    strL "newsletter-close-times-button",
    strL "newsletter-close-times-btn",
    strL "newsletter-close-times-icon-button",
    strL "newsletter-close-times-icon-btn",
    strL "newsletter-close-times-icon-x",
    strL "newsletter-close-times-icon-times",
    strL "newsletter-close-times-icon-close",
    strL "newsletter-close-times-icon-dismiss",
    strL "newsletter-close-times-icon-hide",
    strL "newsletter-close-times-icon-remove",
    strL "newsletter-close-times-icon-exit",
    strL "newsletter-close-times-icon-close-button",
    strL "newsletter-close-times-icon-close-btn",
    strL "newsletter-close-times-icon-dismiss-button",
    strL "newsletter-close-times-icon-dismiss-btn",
    strL "newsletter-close-times-icon-hide-button",
    strL "newsletter-close-times-icon-hide-btn",
    strL "newsletter-close-times-icon-remove-button",
    strL "newsletter-close-times-icon-remove-btn",
    strL "newsletter-close-times-icon-exit-button",
    strL "newsletter-close-times-icon-exit-btn"
  ]

/-- The `unwanted_ids` list of `ETNewsScraper._process_content_element`. -/
def unwanted_ids : List Str :=
  [ strL "comments", strL "related-articles", strL "recommended",
    strL "sidebar", strL "advertisement" ]

/-- `ETNewsScraper._process_content_element`: the element is copied into a
fresh document (so the copy itself can be removed), noise elements are
removed class-by-class, then `script`/`style`/`noscript`/`iframe`/`form`
tags, then the first element carrying each unwanted id; the remaining text
is extracted with space separation and stripping, boilerplate is cut, the
whitespace is cleaned, and the result is accepted only when strictly longer
than 200 characters. -/
def _process_content_element (e : Node) : Option Str :=
  let d1 := unwanted_classes.foldl (fun d cls => removeAllL (classHasSub cls) d) [e]
  let d2 := removeAllL (fun n =>
    [strL "script", strL "style", strL "noscript", strL "iframe", strL "form"].contains
      (elemTag n)) d1
  let d3 := unwanted_ids.foldl (fun d i => (remove1L (fun n => elemId n == some i) d).1) d2
  let content := clean_text (stripBoiler boilerplate_text (getTextSepStripL d3))
  if 200 < content.length then some content else none

/-- The `content_selectors` class list of `ETNewsScraper.extract_article_content`. -/
def content_selectors : List Str :=
  [ strL "artText", strL "article_wrap", strL "article-content",
    strL "story-details", strL "article_content", strL "article-text",
    strL "story-content", strL "story-body", strL "articleBody",
    strL "article-body" ]

/-- The `id_selectors` list of `ETNewsScraper.extract_article_content`. -/
def id_selectors : List Str :=
  [strL "articleBody", strL "article-body", strL "story-content", strL "story-body"]

/-- The class-selector loop of `ETNewsScraper.extract_article_content`.
Processing works on a copy, so the document is unchanged between steps. -/
def classStep : List Str → List Node → Option (Str × Str)
  | [], _ => none
  | c :: rest, doc =>
    match findElem (classHas c) doc with
    | some e =>
      match _process_content_element e with
      | some content => some (content, strL "class: " ++ c)
      | none => classStep rest doc
    | none => classStep rest doc

/-- The id-selector loop of `ETNewsScraper.extract_article_content`. -/
def idStep : List Str → List Node → Option (Str × Str)
  | [], _ => none
  | i :: rest, doc =>
    match findElem (fun e => elemId e == some i) doc with
    | some e =>
      match _process_content_element e with
      | some content => some (content, strL "id: " ++ i)
      | none => idStep rest doc
    | none => idStep rest doc

/-- The final heuristic of `ETNewsScraper.extract_article_content`: the
first `div` whose class mentions `article`, `story` or `content`; all `p`
descendants are joined (each one's raw text stripped, empty ones skipped)
and the joined text is returned raw — without the sanitizer — when strictly
longer than 200 characters. -/
def paraStep (doc : List Node) : Option (Str × Str) :=
  match findElem (fun e =>
      tagIs (strL "div") e &&
      (elemClasses e).any (fun c =>
        hasSub (strL "article") c || hasSub (strL "story") c || hasSub (strL "content") c)) doc with
  | none => none
  | some mc =>
    let ps := (descElems mc).filter (tagIs (strL "p"))
    if ps.isEmpty then none
    else
      let content := joinSep [' ']
        (((ps.map getTextRaw).map stripChars).filter (fun s => !s.isEmpty))
      if !content.isEmpty && decide (200 < content.length) then
        some (content, strL "paragraphs in main content")
      else none

/-- `ETNewsScraper.extract_article_content`: the `article` tag, then the
class selectors, then the id selectors, then the paragraphs heuristic. -/
def extract_article_content (doc : List Node) : Option (Str × Str) :=
  match
    (match findElem (tagIs (strL "article")) doc with
     | some e => (_process_content_element e).map (fun c => (c, strL "article tag"))
     | none => none) with
  | some r => some r
  | none =>
    match classStep content_selectors doc with
    | some r => some r
    | none =>
      match idStep id_selectors doc with
      | some r => some r
      | none => paraStep doc

end INT


namespace FNA

/-- `NewsArticleScraper.boilerplate_text` from `fetch_news_articles.py`. -/
def boilerplate_text : List Str :=
  [ strL "Download The News App",
    strL "Subscribe to our WhatsApp channel",
    strL "Disclaimer Statement:",
    strL "Read More News on",
    strL "Prime Exclusives",
    strL "View all Stories" ]

/-- The source-keyed indicator lookup of `NewsArticleScraper.is_paywall_page`
(`paywall_indicators.get(source.lower(), ['paywall', 'subscription'])`). -/
def indicatorsFor (source : Str) : List Str :=
  if lowerStr source == strL "economictimes" then
    [strL "articleBlocker", strL "paywall_box", strL "prime_paywall", strL "subscribeBtn"]
  else if lowerStr source == strL "livemint" then
    [strL "paywall", strL "subscription-content", strL "paywall-container"]
  else
    [strL "paywall", strL "subscription"]

/-- `NewsArticleScraper.is_paywall_page`: source-specific indicator classes,
then the same length fallback as `articles_data_ET.py` (with a shorter
container class list). -/
def is_paywall_page (source : Str) (doc : List Node) : Bool :=
  if (indicatorsFor source).any (fun ind => (findElem (classHas ind) doc).isSome) then
    true
  else
    match (findElem (classHasAny [strL "artText", strL "article-text"]) doc).or
        (findElem (tagIs (strL "article")) doc) with
    | none => true
    | some e => !(decide (200 < (stripChars (getTextRaw e)).length))

end FNA

/-- A URL cell read from the input CSV: either the missing marker
(`pd.isna(url)` is true for it) or a string. -/
inductive UrlVal where
  | na
  | str (s : Str)
deriving DecidableEq

/-- `pd.isna(url)`. -/
def UrlVal.isNa : UrlVal → Bool
  | .na => true
  | .str _ => false

/-- Python `url == s` for a URL cell (`NaN == s` is false). -/
def UrlVal.eqStr : UrlVal → Str → Bool
  | .na, _ => false
  | .str u, s => u == s

/-- The `ArticleData` dataclass shared by all three scrapers. -/
structure ArticleData where
  url : UrlVal
  headline : Str
  published_date : Str
  full_content : Option Str := none
  extraction_method : Option Str := none
  error : Option Str := none
deriving DecidableEq

/-- The outcome of `requests.get` + `raise_for_status` + HTML parsing,
supplied to the pipeline as an oracle: a parsed document, a
`requests.exceptions.RequestException` (connection error, timeout, non-2xx
status, malformed URL), or any other exception raised inside the `try`
block. -/
inductive FetchResult where
  | ok (doc : List Node)
  | reqErr (msg : Str)
  | exc (msg : Str)

/-- Python truthiness of an optional string (`if result.full_content:`):
true only for a present, non-empty string. -/
def truthy : Option Str → Bool
  | some s => !s.isEmpty
  | none => false

/-- Python `str(x)` on an optional string (`str(None) = "None"`). -/
def strOfOpt : Option Str → Str
  | some s => s
  | none => strL "None"

/-- `process_single_article` (identical control flow in
`articles_data_ET.py` and `ET_news_integrated.py`, which differ only in the
paywall classifier `pw` and content locator `ext` they install): an invalid
URL short-circuits, fetch failures become `Request error:`/
`Unexpected error:` records, a paywalled page becomes a `Paywall detected`
record, located content becomes a success record, and anything else a
`No content found` record. -/
def process_single_article (pw : List Node → Bool) (ext : List Node → Option (Str × Str))
    (fetch : UrlVal → FetchResult) (url : UrlVal) (headline published_date : Str) :
    ArticleData :=
  if url.isNa || url.eqStr (strL "URL not available") then
    { url, headline, published_date, error := some (strL "Invalid URL") }
  else
    match fetch url with
    | .reqErr m =>
      { url, headline, published_date, error := some (strL "Request error: " ++ m) }
    | .exc m =>
      { url, headline, published_date, error := some (strL "Unexpected error: " ++ m) }
    | .ok doc =>
      if pw doc then
        { url, headline, published_date, error := some (strL "Paywall detected") }
      else
        match ext doc with
        | some (c, m) =>
          if c.isEmpty then
            { url, headline, published_date, error := some (strL "No content found") }
          else
            { url, headline, published_date,
              full_content := some c, extraction_method := some m }
        | none =>
          { url, headline, published_date, error := some (strL "No content found") }

/-- One row of the input CSV (`article_url`, `headline`, `published_date`). -/
structure Row where
  article_url : UrlVal
  headline : Str
  published_date : Str

/-- The three in-memory result collections of the scraper object. -/
structure Buckets where
  article_data : List ArticleData
  paywall_urls : List ArticleData
  failed_urls : List ArticleData
deriving DecidableEq

/-- The routing step inside the per-row loop of `process_articles`: a truthy
`full_content` goes to the successes, otherwise `"Paywall" in str(error)`
selects the paywall bucket, and everything else fails. -/
def route (b : Buckets) (r : ArticleData) : Buckets :=
  if truthy r.full_content then
    { b with article_data := b.article_data ++ [r] }
  else if hasSub (strL "Paywall") (strOfOpt r.error) then
    { b with paywall_urls := b.paywall_urls ++ [r] }
  else
    { b with failed_urls := b.failed_urls ++ [r] }

/-- The per-row loop of `process_articles` (before the recheck pass). -/
def firstPass (pw : List Node → Bool) (ext : List Node → Option (Str × Str))
    (fetch : UrlVal → FetchResult) (rows : List Row) : Buckets :=
  rows.foldl
    (fun b row =>
      route b (process_single_article pw ext fetch row.article_url row.headline
        row.published_date))
    ⟨[], [], []⟩

/-- `recheck_paywall_articles`: every record of the paywall bucket is
re-submitted once (against the possibly different responses `fetch2` of the
second round) and the three outcome lists are returned. -/
def recheck_paywall_articles (pw : List Node → Bool)
    (ext : List Node → Option (Str × Str)) (fetch2 : UrlVal → FetchResult)
    (pwList : List ArticleData) : List ArticleData × List ArticleData × List ArticleData :=
  pwList.foldl
    (fun acc a =>
      let r := process_single_article pw ext fetch2 a.url a.headline a.published_date
      if truthy r.full_content then (acc.1 ++ [r], acc.2.1, acc.2.2)
      else if hasSub (strL "Paywall") (strOfOpt r.error) then
        (acc.1, acc.2.1 ++ [r], acc.2.2)
      else (acc.1, acc.2.1, acc.2.2 ++ [r]))
    ([], [], [])

/-- `process_articles`: the first pass over all rows, then — when the
paywall bucket is non-empty — the single recheck pass, whose outcome lists
are merged back under `if recovered:` / `if still_paywall:` /
`if new_failed:` guards, exactly as the code does. -/
def process_articles (pw : List Node → Bool) (ext : List Node → Option (Str × Str))
    (fetch1 fetch2 : UrlVal → FetchResult) (rows : List Row) : Buckets :=
  let b := firstPass pw ext fetch1 rows
  if b.paywall_urls.isEmpty then b
  else
    let r3 := recheck_paywall_articles pw ext fetch2 b.paywall_urls
    { article_data := if r3.1.isEmpty then b.article_data else b.article_data ++ r3.1,
      paywall_urls := if r3.2.1.isEmpty then b.paywall_urls else r3.2.1,
      failed_urls := if r3.2.2.isEmpty then b.failed_urls else b.failed_urls ++ r3.2.2 }

/-- Modelled from the spec: the paywall decision procedure as §4.2 and claim
C3 word it — true iff an explicit marker matches (an element whose class
contains a configured paywall-indicator substring, a text node containing a
configured paywall phrase, an element whose id contains `paywall`
case-insensitively, or a button whose text contains `subscribe`/`sign in`
case-insensitively), OR, when no explicit marker matches, the best-effort
article container is absent or its extracted text is not longer than 200
characters. This definition exists only to be compared with the two
implementations; it is not code of the repository. -/
def specPaywallClassifier (doc : List Node) : Bool :=
  let marker :=
    INT.paywall_indicators.any (fun ind => (findElem (classHasSub ind) doc).isSome)
    || INT.paywall_texts.any (fun t => (textsOfL doc).any (fun s => hasSub t s))
    || (findElem (fun e =>
        match elemId e with
        | some i => hasSub (strL "paywall") (lowerStr i)
        | none => false) doc).isSome
    || (findElem (fun e =>
        tagIs (strL "button") e &&
        match nodeStr e with
        | some s =>
          hasSub (strL "subscribe") (lowerStr s) || hasSub (strL "sign in") (lowerStr s)
        | none => false) doc).isSome
  if marker then true
  else
    match (findElem (classHasAny
        [strL "artText", strL "article-text", strL "article_content"]) doc).or
        (findElem (tagIs (strL "article")) doc) with
    | none => true
    | some e => !(decide (200 < (stripChars (getTextRaw e)).length))

/-- Modelled from the spec: the boilerplate step as claim C7 words it — the
prefix of the text strictly before the earliest occurrence of any configured
boilerplate phrase (the text unchanged when no phrase occurs). This
definition exists only to be compared with `stripBoiler`; it is not code of
the repository. -/
def specEarliestCut (phrases : List Str) (s : Str) : Str :=
  s.take ((phrases.filterMap (fun p => firstIdx p s)).foldl min s.length)


/-- A run of `n` letters `a`, used as filler content in concrete documents. -/
def aStr (n : Nat) : Str := List.replicate n 'a'

/-- A document refuting claim C3 for `articles_data_ET.py`: it contains an
explicit paywall text phrase but no indicator class, and a long `article`
container. -/
def docC3 : List Node :=
  [.text (strL "Subscribe to read"), .elem (strL "article") [] none [.text (aStr 201)]]

/-- A document driving `ET_news_integrated.py`'s locator into its final
paragraphs heuristic: no `article` tag, no selector class or id, but a `div`
whose class mentions `article`, holding two paragraphs whose joined text
contains a boilerplate phrase. -/
def docC8 : List Node :=
  [.elem (strL "div") [strL "newsarticle"] none
    [.elem (strL "p") [] none [.text (aStr 210)],
     .elem (strL "p") [] none [.text (strL "Disclaimer Statement: junk follows")]]]

/-- A one-row batch whose article is paywalled on the first fetch. -/
def rowC4 : Row := ⟨.str (strL "http://example.com/a"), strL "h", strL "d"⟩

/-- First-round response for `rowC4`: a page with an explicit paywall
indicator class. -/
def pwDocC4 : List Node := [.elem (strL "div") [strL "paywall_box"] none []]

/-- Second-round response for `rowC4`: a full article page. -/
def goodDocC4 : List Node := [.elem (strL "article") [] none [.text (aStr 201)]]

/-- A record reproducing claim C10's transport-failure scenario: the fetch
fails with an exception message that happens to contain `Paywall`. -/
def rowC10 : Row := ⟨.str (strL "http://x"), strL "h", strL "d"⟩

/-- No two adjacent plain spaces occur in the string (an invariant of
`collapseWs` output used to prove `clean_text` idempotent). -/
def dblFree : Str → Bool
  | c1 :: c2 :: t => !(c1 == ' ' && c2 == ' ') && dblFree (c2 :: t)
  | _ => true

/-- Claim C1: for every `ArticleData` record returned by
`process_single_article` — whatever paywall classifier, content locator and
fetch outcomes are installed — exactly one of `full_content` and `error` is
non-`None`: never both, never neither. -/
theorem c1_exactly_one (pw : List Node → Bool) (ext : List Node → Option (Str × Str))
    (fetch : UrlVal → FetchResult) (url : UrlVal) (h d : Str) :
    (∃ c, (process_single_article pw ext fetch url h d).full_content = some c ∧
          (process_single_article pw ext fetch url h d).error = none) ∨
    ((process_single_article pw ext fetch url h d).full_content = none ∧
     ∃ e, (process_single_article pw ext fetch url h d).error = some e) := by
  unfold process_single_article
  split
  · exact Or.inr ⟨rfl, _, rfl⟩
  · split
    · exact Or.inr ⟨rfl, _, rfl⟩
    · exact Or.inr ⟨rfl, _, rfl⟩
    · split
      · exact Or.inr ⟨rfl, _, rfl⟩
      · split
        · split
          · exact Or.inr ⟨rfl, _, rfl⟩
          · exact Or.inl ⟨_, rfl, rfl⟩
        · exact Or.inr ⟨rfl, _, rfl⟩

/-- Claim C5, counterexample: an empty-string URL is not short-circuited by
the `pd.isna(url) or url == 'URL not available'` guard — the record's error
is the fetch stage's `Request error: ...` string (so the outcome depends on
the fetch attempt), not `Invalid URL` as the claim requires. -/
theorem c5_counterexample :
    (process_single_article ET.is_paywall_page ET.extract_article_content
        (fun _ => .reqErr (strL "boom")) (.str []) [] []).error
      = some (strL "Request error: boom") ∧
    (process_single_article ET.is_paywall_page ET.extract_article_content
        (fun _ => .reqErr (strL "crash")) (.str []) [] []).error
      = some (strL "Request error: crash") ∧
    some (strL "Request error: boom") ≠ some (strL "Invalid URL") := by
  exact ⟨rfl, rfl, by decide⟩

/-- Claim C5, amended: only the missing-value marker and the exact
placeholder string `URL not available` are short-circuited to an
`Invalid URL` record without consulting the fetcher (the result is the same
for every fetch oracle); an empty-string URL instead reaches the fetch
stage. -/
theorem c5_amended (pw : List Node → Bool) (ext : List Node → Option (Str × Str))
    (fetch : UrlVal → FetchResult) (h d : Str) :
    (process_single_article pw ext fetch .na h d).error = some (strL "Invalid URL") ∧
    (process_single_article pw ext fetch .na h d).full_content = none ∧
    (process_single_article pw ext fetch (.str (strL "URL not available")) h d).error
      = some (strL "Invalid URL") ∧
    (process_single_article pw ext fetch (.str (strL "URL not available")) h d).full_content
      = none := by
  exact ⟨rfl, rfl, rfl, rfl⟩

/-- Claim C6: the 200-character acceptance comparison is strict and uniform —
the sanitizer rejects cleaned text of exactly 200 characters and accepts 201;
the paywall length fallback of `articles_data_ET.py` and of
`fetch_news_articles.py` classifies a 200-character container as paywalled
and a 201-character one as not; and a cascade step whose candidate cleans to
exactly 200 characters is rejected, the cascade moving on to the next
selector. -/
theorem c6_threshold_boundary :
    (ET._process_content_element (.elem (strL "div") [] none [.text (aStr 200)]) = none ∧
     ET._process_content_element (.elem (strL "div") [] none [.text (aStr 201)])
       = some (aStr 201)) ∧
    (ET.is_paywall_page [.elem (strL "div") [strL "artText"] none [.text (aStr 200)]] = true ∧
     ET.is_paywall_page [.elem (strL "div") [strL "artText"] none [.text (aStr 201)]] = false) ∧
    (FNA.is_paywall_page (strL "economictimes")
        [.elem (strL "div") [strL "artText"] none [.text (aStr 200)]] = true ∧
     FNA.is_paywall_page (strL "economictimes")
        [.elem (strL "div") [strL "artText"] none [.text (aStr 201)]] = false) ∧
    ET.extract_article_content
        [.elem (strL "article") [] none [.text (aStr 200)],
         .elem (strL "div") [strL "artText"] none [.text (aStr 201)]]
      = some (aStr 201, strL "class: artText") := by
  decide

/-- Claim C3, counterexample: neither implementation realises the claimed
if-and-only-if. On the empty document no explicit marker matches and the
best-effort container is absent, so the claim requires `true`, but
`ET_news_integrated.py`'s classifier — which has no length fallback —
returns `false`. On `docC3` a configured paywall phrase occurs in a text
node, so the claim requires `true`, but `articles_data_ET.py`'s classifier —
which checks no text phrases — returns `false`. -/
theorem c3_counterexample :
    (INT.is_paywall_page [] = false ∧ specPaywallClassifier [] = true) ∧
    (ET.is_paywall_page docC3 = false ∧ specPaywallClassifier docC3 = true) := by
  decide

/-- Claim C7, counterexample: on text containing the overlapping phrases
`(You can now subscribe to our` (listed later) and
`You can now subscribe to our Economic Times WhatsApp channel` (listed
earlier), the sequential split keeps the prefix up to the earlier-listed
phrase (`"Hi. ("`), while the claimed earliest-occurrence rule would keep
only `"Hi. "`. -/
theorem c7_counterexample :
    stripBoiler ET.boilerplate_text
        (strL "Hi. (You can now subscribe to our Economic Times WhatsApp channel) junk")
      = strL "Hi. (" ∧
    specEarliestCut ET.boilerplate_text
        (strL "Hi. (You can now subscribe to our Economic Times WhatsApp channel) junk")
      = strL "Hi. " ∧
    (strL "Hi. (" : Str) ≠ strL "Hi. " := by
  decide

/-- Claim C8, counterexample: the paragraphs-in-main-content step of
`ET_news_integrated.py` returns the joined paragraph text raw — the returned
text still contains a configured boilerplate phrase, which the sanitizer's
boilerplate step would have removed, so this cascade step compares and
returns text that has not gone through the sanitizer. -/
theorem c8_counterexample :
    INT.extract_article_content docC8
      = some (aStr 210 ++ strL " Disclaimer Statement: junk follows",
              strL "paragraphs in main content") ∧
    stripBoiler INT.boilerplate_text (aStr 210 ++ strL " Disclaimer Statement: junk follows")
      ≠ aStr 210 ++ strL " Disclaimer Statement: junk follows" := by
  decide

/-- Claim C9, counterexample: a sanitizer output that is not a fixed point
of the sanitizer. The raw text contains `Read<TAB>More News on junk`, which
no boilerplate phrase matches, so the sanitizer only normalises the tab —
thereby creating an occurrence of the phrase `Read More News on` in its own
output; re-sanitizing that output truncates it further. -/
theorem c9_counterexample :
    ET._process_content_element
        (.elem (strL "article") [] none
          [.text (aStr 201 ++ strL "Read\tMore News on junk")])
      = some (aStr 201 ++ strL "Read More News on junk") ∧
    ET.sanitizeText (aStr 201 ++ strL "Read More News on junk")
      ≠ aStr 201 ++ strL "Read More News on junk" := by
  decide

/-- Claim C4, code bug: when every paywalled article resolves on the
recheck, `still_paywall` is empty, so the guarded assignment
`if still_paywall: self.paywall_urls = still_paywall` never clears the
paywall bucket. The recovered article's new record lands in the successes
bucket, but its stale `Paywall detected` record also remains in the paywall
bucket — the record does not *move* as the claim (and the spec) state. -/
theorem c4_stale_paywall_bucket :
    process_articles ET.is_paywall_page ET.extract_article_content
        (fun _ => .ok pwDocC4) (fun _ => .ok goodDocC4) [rowC4]
      = { article_data :=
            [{ url := rowC4.article_url, headline := strL "h", published_date := strL "d",
               full_content := some (aStr 201), extraction_method := some (strL "article tag"),
               error := none }],
          paywall_urls :=
            [{ url := rowC4.article_url, headline := strL "h", published_date := strL "d",
               full_content := none, extraction_method := none,
               error := some (strL "Paywall detected") }],
          failed_urls := [] } := by
  decide

/-- The `soup.find(...)` existence check succeeds exactly when some element
of the document satisfies the filter. -/
theorem findElem_isSome_iff (p : Node → Bool) (doc : List Node) :
    (findElem p doc).isSome = true ↔ ∃ e ∈ elemsOfL doc, p e = true := by
  simp [findElem, List.find?_isSome]

/-- Claim C3, amended: the two implementations behave differently and
neither matches the claimed single procedure. `articles_data_ET.py` returns
true iff some element's class list contains one of its four indicator
strings exactly (so an explicit marker overrides any amount of visible
text), or the best-effort container is absent or carries at most 200
characters of stripped text; `ET_news_integrated.py` returns true iff one of
its four explicit marker families matches, and has no content-length
fallback at all. -/
theorem c3_amended (doc : List Node) :
    (ET.is_paywall_page doc = true ↔
      ((∃ e ∈ elemsOfL doc, ∃ c ∈ elemClasses e, c ∈ ET.paywall_indicators) ∨
       ∀ e, ((findElem (classHasAny [strL "artText", strL "article-text",
              strL "article_content"]) doc).or
            (findElem (tagIs (strL "article")) doc)) = some e →
          (stripChars (getTextRaw e)).length ≤ 200)) ∧
    (INT.is_paywall_page doc = true ↔
      ((∃ ind ∈ INT.paywall_indicators, ∃ e ∈ elemsOfL doc, ∃ c ∈ elemClasses e,
          hasSub ind c = true) ∨
       (∃ t ∈ INT.paywall_texts, ∃ s ∈ textsOfL doc, hasSub t s = true) ∨
       (∃ e ∈ elemsOfL doc, ∃ i, elemId e = some i ∧
          hasSub (strL "paywall") (lowerStr i) = true) ∨
       (∃ e ∈ elemsOfL doc, elemTag e = strL "button" ∧ ∃ s, nodeStr e = some s ∧
          (hasSub (strL "subscribe") (lowerStr s) = true ∨
           hasSub (strL "sign in") (lowerStr s) = true)))) := by
  constructor
  · unfold ET.is_paywall_page
    have hm : (ET.paywall_indicators.any
          (fun ind => (findElem (classHas ind) doc).isSome)) = true
        ↔ (∃ e ∈ elemsOfL doc, ∃ c ∈ elemClasses e, c ∈ ET.paywall_indicators) := by
      simp only [List.any_eq_true, findElem_isSome_iff, classHas, List.contains,
        List.elem_iff]
      constructor
      · rintro ⟨ind, hi, e, he, hc⟩; exact ⟨e, he, ind, hc, hi⟩
      · rintro ⟨e, he, c, hc, hi⟩; exact ⟨c, hi, e, he, hc⟩
    by_cases hA : (ET.paywall_indicators.any
        (fun ind => (findElem (classHas ind) doc).isSome)) = true
    · simp only [hA, if_true, true_iff]
      exact Or.inl (hm.mp hA)
    · rw [if_neg hA]
      cases hc : ((findElem (classHasAny [strL "artText", strL "article-text",
          strL "article_content"]) doc).or (findElem (tagIs (strL "article")) doc)) with
      | none =>
        simp only [true_iff]
        exact Or.inr (fun e he => by simp [hc] at he)
      | some e =>
        constructor
        · intro hlen
          refine Or.inr (fun e' he' => ?_)
          cases he'
          simpa using hlen
        · intro hr
          rcases hr with h | h
          · exact absurd (hm.mpr h) hA
          · simpa using h e rfl
  · unfold INT.is_paywall_page
    have h1 : (INT.paywall_indicators.any
          (fun ind => (findElem (classHasSub ind) doc).isSome)) = true
        ↔ (∃ ind ∈ INT.paywall_indicators, ∃ e ∈ elemsOfL doc, ∃ c ∈ elemClasses e,
            hasSub ind c = true) := by
      simp [List.any_eq_true, findElem_isSome_iff, classHasSub]
    have h2 : (INT.paywall_texts.any
          (fun t => (textsOfL doc).any (fun s => hasSub t s))) = true
        ↔ (∃ t ∈ INT.paywall_texts, ∃ s ∈ textsOfL doc, hasSub t s = true) := by
      simp [List.any_eq_true]
    have h3 : (findElem (fun e =>
          match elemId e with
          | some i => hasSub (strL "paywall") (lowerStr i)
          | none => false) doc).isSome = true
        ↔ (∃ e ∈ elemsOfL doc, ∃ i, elemId e = some i ∧
            hasSub (strL "paywall") (lowerStr i) = true) := by
      rw [findElem_isSome_iff]
      constructor
      · rintro ⟨e, he, hp⟩
        cases hi : elemId e with
        | none => rw [hi] at hp; cases hp
        | some i => rw [hi] at hp; exact ⟨e, he, i, hi, hp⟩
      · rintro ⟨e, he, i, hi, hp⟩
        exact ⟨e, he, by rw [hi]; exact hp⟩
    have h4 : (findElem (fun e =>
          tagIs (strL "button") e &&
          match nodeStr e with
          | some s =>
            hasSub (strL "subscribe") (lowerStr s) || hasSub (strL "sign in") (lowerStr s)
          | none => false) doc).isSome = true
        ↔ (∃ e ∈ elemsOfL doc, elemTag e = strL "button" ∧ ∃ s, nodeStr e = some s ∧
            (hasSub (strL "subscribe") (lowerStr s) = true ∨
             hasSub (strL "sign in") (lowerStr s) = true)) := by
      rw [findElem_isSome_iff]
      constructor
      · rintro ⟨e, he, hp⟩
        rw [Bool.and_eq_true] at hp
        obtain ⟨ht, hs⟩ := hp
        cases hns : nodeStr e with
        | none => rw [hns] at hs; cases hs
        | some s =>
          rw [hns] at hs
          rw [Bool.or_eq_true] at hs
          refine ⟨e, he, ?_, s, hns, hs⟩
          simpa [tagIs] using ht
      · rintro ⟨e, he, ht, s, hns, hs⟩
        refine ⟨e, he, ?_⟩
        rw [Bool.and_eq_true]
        exact ⟨by simp [tagIs, ht], by rw [hns]; exact Bool.or_eq_true _ _ |>.mpr hs⟩
    rw [← h1, ← h2, ← h3, ← h4]
    by_cases hA : (INT.paywall_indicators.any
        (fun ind => (findElem (classHasSub ind) doc).isSome)) = true
    · simp [hA]
    · rw [Bool.not_eq_true] at hA
      by_cases hB : (INT.paywall_texts.any
          (fun t => (textsOfL doc).any (fun s => hasSub t s))) = true
      · simp [hA, hB]
      · rw [Bool.not_eq_true] at hB
        by_cases hC : (findElem (fun e =>
            match elemId e with
            | some i => hasSub (strL "paywall") (lowerStr i)
            | none => false) doc).isSome = true
        · simp [hA, hB, hC]
        · rw [Bool.not_eq_true] at hC
          by_cases hD : (findElem (fun e =>
              tagIs (strL "button") e &&
              match nodeStr e with
              | some s =>
                hasSub (strL "subscribe") (lowerStr s) ||
                  hasSub (strL "sign in") (lowerStr s)
              | none => false) doc).isSome = true
          · simp [hA, hB, hC, hD]
          · rw [Bool.not_eq_true] at hD
            simp [hA, hB, hC, hD]

/-- A successful cascade step's content always comes out of
`_process_content_element` applied to the located element. -/
theorem tryStep_some (p : Node → Bool) (doc : List Node) (c : Str) (doc' : List Node)
    (h : ET.tryStep p doc = (some c, doc')) :
    ∃ e, ET._process_content_element e = some c := by
  unfold ET.tryStep at h
  cases hf : findReplL p (pruneDesc ET.unwantedPred) doc with
  | none => rw [hf] at h; cases h
  | some pr =>
    obtain ⟨e, d2⟩ := pr
    rw [hf] at h
    simp only [Prod.mk.injEq] at h
    exact ⟨e, h.1⟩

/-- Every successful outcome of the `articles_data_ET.py` cascade is an
output of the sanitizing `_process_content_element` on some element. -/
theorem cascadeGo_sanitized (steps : List ((Node → Bool) × Str)) :
    ∀ (doc : List Node) (c m : Str),
      ET.cascadeGo steps doc = some (c, m) →
      ∃ e, ET._process_content_element e = some c := by
  induction steps with
  | nil => intro doc c m h; cases h
  | cons s rest ih =>
    intro doc c m h
    obtain ⟨p, nm⟩ := s
    unfold ET.cascadeGo at h
    cases htry : ET.tryStep p doc with
    | mk copt doc' =>
      rw [htry] at h
      cases copt with
      | some c' =>
        simp only at h
        injection h with h'
        injection h' with hc hm
        subst hc
        exact tryStep_some p doc c' doc' htry
      | none => exact ih doc' c m h

/-- Claim C8, amended: in `articles_data_ET.py` every cascade step passes
its candidate through the sanitizer before the length check, so the locator
only ever returns sanitizer outputs; `ET_news_integrated.py` does the same
for its tag, class and id steps, but its final paragraphs heuristic returns
the joined paragraph text raw (see the counterexample). -/
theorem c8_amended (doc : List Node) (c m : Str)
    (h : ET.extract_article_content doc = some (c, m)) :
    ∃ e, ET._process_content_element e = some c :=
  cascadeGo_sanitized ET.cascadeSteps doc c m h

/-- Witness instantiating `c8_amended` on a concrete successful document. -/
theorem c8_amended_witness :
    ∃ e, ET._process_content_element e = some (aStr 201) :=
  c8_amended [.elem (strL "article") [] none [.text (aStr 201)]] (aStr 201)
    (strL "article tag") (by decide)

/-- `isPrefixOf` expressed through an explicit decomposition. -/
theorem isPrefixOf_ex (p l : Str) : p.isPrefixOf l = true ↔ ∃ t, p ++ t = l := by
  induction p generalizing l with
  | nil => simp [List.isPrefixOf]
  | cons a p ih =>
    cases l with
    | nil => simp [List.isPrefixOf]
    | cons b l =>
      simp only [List.isPrefixOf, Bool.and_eq_true, beq_iff_eq, ih, List.cons_append,
        List.cons.injEq]
      constructor
      · rintro ⟨rfl, t, rfl⟩; exact ⟨t, rfl, rfl⟩
      · rintro ⟨t, rfl, rfl⟩; exact ⟨rfl, t, rfl⟩

/-- The empty pattern occurs in every string. -/
theorem hasSub_nil (l : Str) : hasSub [] l = true := by
  cases l with
  | nil => rfl
  | cons c t => simp [hasSub, List.isPrefixOf]

/-- Occurrence is preserved when the string is extended on the right. -/
theorem hasSub_of_pre (p x u : Str) (h : hasSub p x = true) :
    hasSub p (x ++ u) = true := by
  induction x with
  | nil =>
    simp only [hasSub, List.isEmpty_iff] at h
    subst h
    exact hasSub_nil u
  | cons c t ih =>
    simp only [List.cons_append]
    unfold hasSub at h ⊢
    rw [Bool.or_eq_true] at h ⊢
    rcases h with h | h
    · left
      rw [isPrefixOf_ex] at h ⊢
      obtain ⟨w, hw⟩ := h
      exact ⟨w ++ u, by rw [← List.append_assoc, hw]; rfl⟩
    · right; exact ih h

/-- Contrapositive form: a prefix of a string with no occurrence has none. -/
theorem hasSub_false_pre (p x u : Str) (h : hasSub p (x ++ u) = false) :
    hasSub p x = false := by
  by_contra hx
  rw [Bool.not_eq_false] at hx
  rw [hasSub_of_pre p x u hx] at h
  cases h

/-- `cutAt` returns a prefix of its input. -/
theorem cutAt_isPre (pat s : Str) : ∃ t, cutAt pat s ++ t = s := by
  induction s with
  | nil => exact ⟨[], rfl⟩
  | cons c t ih =>
    unfold cutAt
    by_cases h : pat.isPrefixOf (c :: t) = true
    · rw [if_pos h]; exact ⟨c :: t, rfl⟩
    · rw [if_neg h]
      obtain ⟨u, hu⟩ := ih
      exact ⟨u, by rw [List.cons_append, hu]⟩

/-- Cutting before the first occurrence of a non-empty pattern leaves no
occurrence of it. -/
theorem cutAt_no (pat s : Str) (hne : pat ≠ []) :
    hasSub pat (cutAt pat s) = false := by
  have hemp : hasSub pat [] = false := by
    cases pat with
    | nil => exact absurd rfl hne
    | cons a q => rfl
  induction s with
  | nil => exact hemp
  | cons c t ih =>
    unfold cutAt
    by_cases h : pat.isPrefixOf (c :: t) = true
    · rw [if_pos h]
      exact hemp
    · rw [if_neg h]
      unfold hasSub
      rw [Bool.or_eq_false_iff]
      refine ⟨?_, ih⟩
      by_contra hp
      rw [Bool.not_eq_false, isPrefixOf_ex] at hp
      obtain ⟨w, hw⟩ := hp
      obtain ⟨u, hu⟩ := cutAt_isPre pat t
      apply h
      rw [isPrefixOf_ex]
      refine ⟨w ++ u, ?_⟩
      rw [← List.append_assoc, hw, List.cons_append, hu]

/-- One step of the boilerplate fold. -/
theorem stripBoiler_cons (p : Str) (rest : List Str) (s : Str) :
    stripBoiler (p :: rest) s
      = stripBoiler rest (if hasSub p s = true then cutAt p s else s) := rfl

/-- The sequential boilerplate loop returns a prefix of its input. -/
theorem stripBoiler_pre (phrases : List Str) (s : Str) :
    ∃ t, stripBoiler phrases s ++ t = s := by
  induction phrases generalizing s with
  | nil => exact ⟨[], by simp [stripBoiler]⟩
  | cons p rest ih =>
    rw [stripBoiler_cons]
    by_cases h : hasSub p s = true
    · rw [if_pos h]
      obtain ⟨t1, ht1⟩ := ih (cutAt p s)
      obtain ⟨t2, ht2⟩ := cutAt_isPre p s
      exact ⟨t1 ++ t2, by rw [← List.append_assoc, ht1, ht2]⟩
    · rw [if_neg h]
      exact ih s

/-- After the sequential boilerplate loop, no configured (non-empty) phrase
occurs in the result. -/
theorem stripBoiler_noSub (phrases : List Str) (s : Str)
    (hne : ∀ p ∈ phrases, p ≠ []) :
    ∀ p ∈ phrases, hasSub p (stripBoiler phrases s) = false := by
  induction phrases generalizing s with
  | nil => intro p hp; cases hp
  | cons q rest ih =>
    intro p hp
    rw [stripBoiler_cons]
    rcases List.mem_cons.mp hp with rfl | hp'
    · have h1 : hasSub p (if hasSub p s = true then cutAt p s else s) = false := by
        by_cases h : hasSub p s = true
        · rw [if_pos h]; exact cutAt_no p s (hne p (List.mem_cons_self p rest))
        · rw [if_neg h]; exact Bool.not_eq_true _ |>.mp h
      obtain ⟨t, ht⟩ := stripBoiler_pre rest (if hasSub p s = true then cutAt p s else s)
      exact hasSub_false_pre p _ t (by rw [ht]; exact h1)
    · exact ih (if hasSub q s = true then cutAt q s else s)
        (fun r hr => hne r (List.mem_cons_of_mem _ hr)) p hp'

/-- Claim C7, amended: the boilerplate step cuts at the first occurrence of
each configured phrase sequentially, in list order. The result is always a
prefix of the input containing no configured phrase, but it is not in
general the prefix before the earliest occurrence of any phrase (see the
counterexample). The concrete example of the claim does hold: with
`fetch_news_articles.py`'s phrase list, sanitizing
`"Real article body. Download The News App. Extra junk after."` yields
`"Real article body."`. -/
theorem c7_amended :
    (∀ s, ∃ t, stripBoiler ET.boilerplate_text s ++ t = s) ∧
    (∀ s p, p ∈ ET.boilerplate_text →
      hasSub p (stripBoiler ET.boilerplate_text s) = false) ∧
    clean_text (stripBoiler FNA.boilerplate_text
        (strL "Real article body. Download The News App. Extra junk after."))
      = strL "Real article body." := by
  refine ⟨fun s => stripBoiler_pre _ s,
          fun s p hp => stripBoiler_noSub _ s (by decide) p hp,
          by decide⟩

/-- Witness instantiating `c7_amended` at a concrete phrase and text. -/
theorem c7_amended_witness :
    hasSub (strL "Prime Exclusives")
      (stripBoiler ET.boilerplate_text (strL "x Prime Exclusives y")) = false :=
  c7_amended.2.1 (strL "x Prime Exclusives y") (strL "Prime Exclusives") (by decide)

/-- Equation: a whitespace character is skipped inside a whitespace run. -/
theorem collapseAux_sp_true (a : Char) (t : Str) (ha : isSp a = true) :
    collapseAux true (a :: t) = collapseAux true t := by
  simp [collapseAux, ha]

/-- Equation: a whitespace character opens a run and emits one space. -/
theorem collapseAux_sp_false (a : Char) (t : Str) (ha : isSp a = true) :
    collapseAux false (a :: t) = ' ' :: collapseAux true t := by
  simp [collapseAux, ha]

/-- Equation: a non-whitespace character is copied and closes any run. -/
theorem collapseAux_nsp (b : Bool) (a : Char) (t : Str) (ha : isSp a = false) :
    collapseAux b (a :: t) = a :: collapseAux false t := by
  cases b <;> simp [collapseAux, ha]

/-- Every whitespace character emitted by the collapse is a plain space. -/
theorem collapseAux_blank (l : Str) :
    ∀ b, ∀ c ∈ collapseAux b l, isSp c = true → c = ' ' := by
  induction l with
  | nil => intro b c hc; cases hc
  | cons a t ih =>
    intro b c hc hsp
    by_cases ha : isSp a = true
    · cases b with
      | true =>
        rw [collapseAux_sp_true a t ha] at hc
        exact ih true c hc hsp
      | false =>
        rw [collapseAux_sp_false a t ha] at hc
        rcases List.mem_cons.mp hc with rfl | hc'
        · rfl
        · exact ih true c hc' hsp
    · rw [collapseAux_nsp b a t (by simpa using ha)] at hc
      rcases List.mem_cons.mp hc with rfl | hc'
      · simp_all
      · exact ih false c hc' hsp

/-- Inside a whitespace run, the next emitted character is not whitespace. -/
theorem collapseAux_true_headNsp (l : Str) :
    ∀ c t', collapseAux true l = c :: t' → isSp c = false := by
  induction l with
  | nil => intro c t' h; cases h
  | cons a t ih =>
    intro c t' h
    by_cases ha : isSp a = true
    · rw [collapseAux_sp_true a t ha] at h
      exact ih c t' h
    · have ha' : isSp a = false := by simpa using ha
      rw [collapseAux_nsp true a t ha'] at h
      injection h with h1 _
      rw [← h1]
      exact ha'

/-- Collapse in `inWs = true` mode yields `[]` only on all-whitespace input. -/
theorem collapseAux_true_nil (l : Str) (h : collapseAux true l = []) :
    ∀ c ∈ l, isSp c = true := by
  induction l with
  | nil => intro c hc; cases hc
  | cons a t ih =>
    intro c hc
    by_cases ha : isSp a = true
    · rw [collapseAux_sp_true a t ha] at h
      rcases List.mem_cons.mp hc with rfl | hc'
      · exact ha
      · exact ih h c hc'
    · rw [collapseAux_nsp true a t (by simpa using ha)] at h
      cases h

/-- Collapse in `inWs = false` mode never erases a non-empty input. -/
theorem collapseAux_false_ne_nil (a : Char) (t : Str) :
    collapseAux false (a :: t) ≠ [] := by
  by_cases ha : isSp a = true
  · rw [collapseAux_sp_false a t ha]; simp
  · rw [collapseAux_nsp false a t (by simpa using ha)]; simp

/-- Extend a double-space-free string on the left. -/
theorem dblFree_cons_of (a : Char) (l : Str) (h1 : dblFree l = true)
    (h2 : ∀ c t', l = c :: t' → (a == ' ' && c == ' ') = false) :
    dblFree (a :: l) = true := by
  cases l with
  | nil => rfl
  | cons c t' =>
    unfold dblFree
    rw [Bool.and_eq_true]
    constructor
    · rw [h2 c t' rfl]; rfl
    · exact h1

/-- The tail of a double-space-free string is double-space-free. -/
theorem dblFree_tail (a : Char) (l : Str) (h : dblFree (a :: l) = true) :
    dblFree l = true := by
  cases l with
  | nil => rfl
  | cons c t =>
    unfold dblFree at h
    rw [Bool.and_eq_true] at h
    exact h.2

/-- The collapse never emits two adjacent spaces. -/
theorem collapseAux_dbl (l : Str) : ∀ b, dblFree (collapseAux b l) = true := by
  induction l with
  | nil => intro b; rfl
  | cons a t ih =>
    intro b
    by_cases ha : isSp a = true
    · cases b with
      | true =>
        rw [collapseAux_sp_true a t ha]
        exact ih true
      | false =>
        rw [collapseAux_sp_false a t ha]
        refine dblFree_cons_of ' ' _ (ih true) ?_
        intro c t' hc
        have hcn := collapseAux_true_headNsp t c t' hc
        have hcs : (c == ' ') = false := by
          by_contra hx
          rw [Bool.not_eq_false] at hx
          have hc' : c = ' ' := by simpa using hx
          subst hc'
          simp [isSp] at hcn
        simp [hcs]
    · have ha' : isSp a = false := by simpa using ha
      rw [collapseAux_nsp b a t ha']
      refine dblFree_cons_of a _ (ih false) ?_
      intro c t' hc
      have has : (a == ' ') = false := by
        by_contra hx
        rw [Bool.not_eq_false] at hx
        have ha2 : a = ' ' := by simpa using hx
        subst ha2
        simp [isSp] at ha'
      simp [has]

/-- The collapse preserves the absence of a trailing whitespace character. -/
theorem collapseAux_last (l : Str) :
    ∀ b, (∀ c, l.getLast? = some c → isSp c = false) →
      ∀ c, (collapseAux b l).getLast? = some c → isSp c = false := by
  induction l with
  | nil => intro b _ c hc; cases hc
  | cons a t ih =>
    intro b hl c hc
    by_cases ha : isSp a = true
    · have ht : t ≠ [] := by
        intro h0
        subst h0
        have := hl a rfl
        simp [ha] at this
      have hlt : ∀ c, t.getLast? = some c → isSp c = false := by
        intro c hc2
        apply hl
        cases t with
        | nil => exact absurd rfl ht
        | cons x xs => rw [List.getLast?_cons_cons]; exact hc2
      cases b with
      | true =>
        rw [collapseAux_sp_true a t ha] at hc
        exact ih true hlt c hc
      | false =>
        rw [collapseAux_sp_false a t ha] at hc
        cases hct : collapseAux true t with
        | nil =>
          exfalso
          have hall := collapseAux_true_nil t hct
          cases t with
          | nil => exact ht rfl
          | cons x xs =>
            have hne : (x :: xs : Str) ≠ [] := by simp
            have hsome := List.getLast?_eq_getLast_of_ne_nil hne
            have hmem := List.getLast_mem hne
            have h1 := hall _ hmem
            have h2 := hlt _ hsome
            rw [h1] at h2
            cases h2
        | cons d ds =>
          rw [hct, List.getLast?_cons_cons, ← hct] at hc
          exact ih true hlt c hc
    · have ha' : isSp a = false := by simpa using ha
      rw [collapseAux_nsp b a t ha'] at hc
      cases hct : collapseAux false t with
      | nil =>
        rw [hct] at hc
        have hca : c = a := by
          have : (some a : Option Char) = some c := hc
          injection this with h1
          exact h1.symm
        subst hca
        exact ha'
      | cons d ds =>
        have ht : t ≠ [] := by
          intro h0
          rw [h0] at hct
          cases hct
        have hlt : ∀ c, t.getLast? = some c → isSp c = false := by
          intro c hc2
          apply hl
          cases t with
          | nil => exact absurd rfl ht
          | cons x xs => rw [List.getLast?_cons_cons]; exact hc2
        rw [hct, List.getLast?_cons_cons, ← hct] at hc
        exact ih false hlt c hc

/-- A string with only plain isolated spaces is a fixed point of the
collapse. -/
theorem collapseAux_fix (l : Str) (hb : ∀ c ∈ l, isSp c = true → c = ' ')
    (hd : dblFree l = true) : collapseAux false l = l := by
  induction l with
  | nil => rfl
  | cons a t ih =>
    by_cases ha : isSp a = true
    · have ha' : a = ' ' := hb a (List.mem_cons_self a t) ha
      subst ha'
      rw [collapseAux_sp_false ' ' t ha]
      have hih := ih (fun c hc hs => hb c (List.mem_cons_of_mem _ hc) hs)
        (dblFree_tail _ _ hd)
      cases t with
      | nil => rfl
      | cons d ds =>
        have hdd : ((' ' == ' ') && (d == ' ')) = false := by
          unfold dblFree at hd
          rw [Bool.and_eq_true] at hd
          have := hd.1
          rw [Bool.not_eq_eq_eq_not] at this
          simpa using this
        have hd' : (d == ' ') = false := by simpa using hdd
        have hdsp : isSp d = false := by
          by_contra hx
          rw [Bool.not_eq_false] at hx
          have : d = ' ' := hb d (by simp) hx
          subst this
          simp at hd'
        rw [collapseAux_nsp false d ds hdsp] at hih
        rw [collapseAux_nsp true d ds hdsp]
        exact congrArg (' ' :: ·) hih
    · have ha' : isSp a = false := by simpa using ha
      rw [collapseAux_nsp false a t ha']
      exact congrArg (a :: ·)
        (ih (fun c hc hs => hb c (List.mem_cons_of_mem _ hc) hs) (dblFree_tail _ _ hd))

/-- The first character surviving `dropWhile isSp` is not whitespace. -/
theorem dropWhile_headNsp (l : Str) :
    ∀ c t', l.dropWhile isSp = c :: t' → isSp c = false := by
  induction l with
  | nil => intro c t' h; cases h
  | cons a t ih =>
    intro c t' h
    by_cases ha : isSp a = true
    · rw [List.dropWhile_cons_of_pos ha] at h
      exact ih c t' h
    · rw [List.dropWhile_cons_of_neg ha] at h
      injection h with h1 _
      rw [← h1]
      simpa using ha

/-- `dropWhile` removes an initial segment. -/
theorem dropWhile_pre_ex (l : Str) : ∃ pre, pre ++ l.dropWhile isSp = l := by
  induction l with
  | nil => exact ⟨[], rfl⟩
  | cons a t ih =>
    by_cases ha : isSp a = true
    · rw [List.dropWhile_cons_of_pos ha]
      obtain ⟨pre, hp⟩ := ih
      exact ⟨a :: pre, by rw [List.cons_append, hp]⟩
    · rw [List.dropWhile_cons_of_neg ha]
      exact ⟨[], rfl⟩

/-- A stripped string does not begin with whitespace. -/
theorem stripChars_head (s : Str) :
    ∀ c t', stripChars s = c :: t' → isSp c = false := by
  intro c t' h
  obtain ⟨pre, hp⟩ := dropWhile_pre_ex ((s.dropWhile isSp).reverse)
  have hy : stripChars s ++ pre.reverse = s.dropWhile isSp := by
    have h2 := congrArg List.reverse hp
    rw [List.reverse_append, List.reverse_reverse] at h2
    exact h2
  rw [h] at hy
  exact dropWhile_headNsp s c (t' ++ pre.reverse) (by rw [← hy]; rfl)

/-- A stripped string does not end with whitespace. -/
theorem stripChars_last (s : Str) :
    ∀ c, (stripChars s).getLast? = some c → isSp c = false := by
  intro c h
  unfold stripChars dropTrail at h
  rw [List.getLast?_reverse] at h
  cases hh : ((s.dropWhile isSp).reverse.dropWhile isSp) with
  | nil => rw [hh] at h; cases h
  | cons d ds =>
    rw [hh] at h
    simp only [List.head?_cons] at h
    injection h with h1
    rw [← h1]
    exact dropWhile_headNsp ((s.dropWhile isSp).reverse) d ds hh

/-- The collapse preserves a non-whitespace first character. -/
theorem collapseWs_head (l : Str) (hl : ∀ c t', l = c :: t' → isSp c = false) :
    ∀ c t', collapseWs l = c :: t' → isSp c = false := by
  intro c t' h
  cases l with
  | nil => cases h
  | cons a t =>
    have ha := hl a t rfl
    unfold collapseWs at h
    rw [collapseAux_nsp false a t ha] at h
    injection h with h1 _
    rw [← h1]
    exact ha

/-- A string with non-whitespace ends is a fixed point of `stripChars`. -/
theorem stripChars_fix (l : Str) (hh : ∀ c t', l = c :: t' → isSp c = false)
    (hl : ∀ c, l.getLast? = some c → isSp c = false) :
    stripChars l = l := by
  have h1 : l.dropWhile isSp = l := by
    cases l with
    | nil => rfl
    | cons a t => exact List.dropWhile_cons_of_neg (by simp [hh a t rfl])
  have h2 : l.reverse.dropWhile isSp = l.reverse := by
    cases hr : l.reverse with
    | nil => simp
    | cons a t =>
      have hga : l.getLast? = some a := by
        rw [← List.reverse_reverse l, List.getLast?_reverse, hr]
        rfl
      exact List.dropWhile_cons_of_neg (by simp [hl a hga])
  unfold stripChars dropTrail
  rw [h1, h2, List.reverse_reverse]

/-- On a string whose whitespace is only plain spaces, the newline
replacement is the identity. -/
theorem map_replNl_id (l : Str) (hb : ∀ c ∈ l, isSp c = true → c = ' ') :
    l.map replNl = l := by
  induction l with
  | nil => rfl
  | cons a t ih =>
    rw [List.map_cons]
    have hb' := hb a (List.mem_cons_self a t)
    have ha : replNl a = a := by
      unfold replNl
      split
      next h =>
        rcases Bool.or_eq_true _ _ |>.mp h with h1 | h1
        · rcases Bool.or_eq_true _ _ |>.mp h1 with h2 | h2
          · have h3 : a = '\n' := by simpa using h2
            subst h3
            exact absurd (hb' (by decide)) (by decide)
          · have h3 : a = '\r' := by simpa using h2
            subst h3
            exact absurd (hb' (by decide)) (by decide)
        · have h3 : a = '\t' := by simpa using h1
          subst h3
          exact absurd (hb' (by decide)) (by decide)
      next => rfl
    rw [ha, ih (fun c hc hs => hb c (List.mem_cons_of_mem _ hc) hs)]

/-- Claim C9, amended: the pipeline is a pure function, so re-running the
locator + sanitizer on the same HTML trivially reproduces its output, and
the whitespace-normalisation step `clean_text` is genuinely idempotent; but
the full sanitizer (boilerplate truncation followed by `clean_text`) is not
a fixed point on its own output — see the counterexample, where whitespace
collapsing creates a new boilerplate occurrence. -/
theorem c9_amended (s : Str) : clean_text (clean_text s) = clean_text s := by
  have hclean : ∀ l : Str, clean_text l = collapseWs (stripChars l) := by
    intro l
    unfold clean_text
    by_cases h : l.isEmpty = true
    · rw [if_pos h]
      have h0 : l = [] := by simpa using h
      subst h0
      rfl
    · rw [if_neg h]
      exact map_replNl_id _ (collapseAux_blank _ false)
  rw [hclean s, hclean (collapseWs (stripChars s))]
  have hb : ∀ c ∈ collapseWs (stripChars s), isSp c = true → c = ' ' :=
    collapseAux_blank (stripChars s) false
  have hd : dblFree (collapseWs (stripChars s)) = true :=
    collapseAux_dbl (stripChars s) false
  have hhead : ∀ c t', collapseWs (stripChars s) = c :: t' → isSp c = false :=
    collapseWs_head (stripChars s) (stripChars_head s)
  have hlast : ∀ c, (collapseWs (stripChars s)).getLast? = some c → isSp c = false :=
    collapseAux_last (stripChars s) false (stripChars_last s)
  rw [stripChars_fix _ hhead hlast]
  exact collapseAux_fix _ hb hd

/-- Routing a record grows exactly one bucket by exactly one record. -/
theorem route_sizes (b : Buckets) (r : ArticleData) :
    (route b r).article_data.length + (route b r).paywall_urls.length
      + (route b r).failed_urls.length
    = b.article_data.length + b.paywall_urls.length + b.failed_urls.length + 1 := by
  unfold route
  split
  · simp only [List.length_append, List.length_cons, List.length_nil]
    omega
  · split <;>
      (simp only [List.length_append, List.length_cons, List.length_nil]; omega)

/-- Accumulated form of the bucket-count invariant of the per-row loop. -/
theorem foldl_route_sizes (pw : List Node → Bool) (ext : List Node → Option (Str × Str))
    (fetch : UrlVal → FetchResult) (rows : List Row) :
    ∀ b : Buckets,
      ((rows.foldl (fun b row => route b (process_single_article pw ext fetch
          row.article_url row.headline row.published_date)) b).article_data.length
        + (rows.foldl (fun b row => route b (process_single_article pw ext fetch
            row.article_url row.headline row.published_date)) b).paywall_urls.length
        + (rows.foldl (fun b row => route b (process_single_article pw ext fetch
            row.article_url row.headline row.published_date)) b).failed_urls.length)
      = b.article_data.length + b.paywall_urls.length + b.failed_urls.length
          + rows.length := by
  induction rows with
  | nil => intro b; simp
  | cons row rest ih =>
    intro b
    rw [List.foldl_cons, ih, route_sizes]
    simp only [List.length_cons]
    omega

/-- Claim C2: `process_single_article` is total — every failure mode of the
fetch stage is returned as a record whose `error` field carries the reason
string — and the per-row loop resolves every input row into exactly one
bucketed record, so one article's failure never aborts the rest of the
batch. -/
theorem c2_failure_semantics :
    (∀ (pw : List Node → Bool) (ext : List Node → Option (Str × Str))
        (fetch : UrlVal → FetchResult) (rows : List Row),
      (firstPass pw ext fetch rows).article_data.length
        + (firstPass pw ext fetch rows).paywall_urls.length
        + (firstPass pw ext fetch rows).failed_urls.length = rows.length) ∧
    (∀ (pw : List Node → Bool) (ext : List Node → Option (Str × Str)) (u h d m : Str),
      (u == strL "URL not available") = false →
      (process_single_article pw ext (fun _ => .reqErr m) (.str u) h d).error
          = some (strL "Request error: " ++ m) ∧
      (process_single_article pw ext (fun _ => .reqErr m) (.str u) h d).full_content
          = none) ∧
    (∀ (pw : List Node → Bool) (ext : List Node → Option (Str × Str)) (u h d m : Str),
      (u == strL "URL not available") = false →
      (process_single_article pw ext (fun _ => .exc m) (.str u) h d).error
          = some (strL "Unexpected error: " ++ m) ∧
      (process_single_article pw ext (fun _ => .exc m) (.str u) h d).full_content
          = none) := by
  refine ⟨?_, ?_, ?_⟩
  · intro pw ext fetch rows
    have := foldl_route_sizes pw ext fetch rows ⟨[], [], []⟩
    simpa [firstPass] using this
  · intro pw ext u h d m hu
    unfold process_single_article
    rw [if_neg (by simp [UrlVal.isNa, UrlVal.eqStr, hu])]
    exact ⟨rfl, rfl⟩
  · intro pw ext u h d m hu
    unfold process_single_article
    rw [if_neg (by simp [UrlVal.isNa, UrlVal.eqStr, hu])]
    exact ⟨rfl, rfl⟩

/-- Witness instantiating `c2_failure_semantics` on a concrete batch: one
valid URL failing with a request error, one missing URL. -/
theorem c2_failure_semantics_witness :
    (firstPass ET.is_paywall_page ET.extract_article_content
        (fun _ => .reqErr (strL "x"))
        [⟨.str (strL "http://a"), [], []⟩, ⟨.na, [], []⟩]).article_data.length
      + (firstPass ET.is_paywall_page ET.extract_article_content
          (fun _ => .reqErr (strL "x"))
          [⟨.str (strL "http://a"), [], []⟩, ⟨.na, [], []⟩]).paywall_urls.length
      + (firstPass ET.is_paywall_page ET.extract_article_content
          (fun _ => .reqErr (strL "x"))
          [⟨.str (strL "http://a"), [], []⟩, ⟨.na, [], []⟩]).failed_urls.length = 2 ∧
    (process_single_article ET.is_paywall_page ET.extract_article_content
        (fun _ => .reqErr (strL "x")) (.str (strL "http://a")) [] []).error
      = some (strL "Request error: x") :=
  ⟨c2_failure_semantics.1 _ _ _ _,
   (c2_failure_semantics.2.1 ET.is_paywall_page ET.extract_article_content
      (strL "http://a") [] [] (strL "x") (by decide)).1⟩

/-- Membership in the paywall bucket across the per-row loop, in accumulated
form. -/
theorem foldl_route_pw_mem (pw : List Node → Bool) (ext : List Node → Option (Str × Str))
    (fetch : UrlVal → FetchResult) (rows : List Row) :
    ∀ (b : Buckets) (r : ArticleData),
      (r ∈ (rows.foldl (fun b row => route b (process_single_article pw ext fetch
          row.article_url row.headline row.published_date)) b).paywall_urls
      ↔ r ∈ b.paywall_urls ∨ ∃ row ∈ rows,
          r = process_single_article pw ext fetch row.article_url row.headline
            row.published_date ∧ truthy r.full_content = false ∧
          hasSub (strL "Paywall") (strOfOpt r.error) = true) := by
  induction rows with
  | nil => intro b r; simp
  | cons row rest ih =>
    intro b r
    rw [List.foldl_cons, ih]
    constructor
    · rintro (hb | hrest)
      · unfold route at hb
        split at hb
        next h1 => exact Or.inl hb
        next h1 =>
          split at hb
          next h2 =>
            simp only [List.mem_append, List.mem_singleton] at hb
            rcases hb with hb | hb
            · exact Or.inl hb
            · subst hb
              refine Or.inr ⟨row, List.mem_cons_self _ _, rfl, ?_, h2⟩
              simpa using h1
          next h2 => exact Or.inl hb
      · obtain ⟨row', hrow', hr⟩ := hrest
        exact Or.inr ⟨row', List.mem_cons_of_mem _ hrow', hr⟩
    · rintro (hb | ⟨row', hrow', hcond⟩)
      · left
        unfold route
        split
        · exact hb
        · split
          · simp only [List.mem_append]
            exact Or.inl hb
          · exact hb
      · rcases List.mem_cons.mp hrow' with rfl | hmem
        · left
          obtain ⟨hr0, hft, hpw⟩ := hcond
          rw [← hr0]
          unfold route
          rw [if_neg (by simp [hft]), if_pos hpw]
          simp
        · right
          exact ⟨row', hmem, hcond⟩

/-- Claim C10: a processed record without truthy content is routed to the
paywall bucket exactly when the substring `Paywall` occurs in the string
form of its `error` field; consequently a transport-failure record whose
exception text mentions a paywall-looking host is routed to the paywall
bucket and re-fetched during the recheck pass (here failing again, with the
second round's outcome recorded in the failures bucket). -/
theorem c10_routing :
    (∀ (pw : List Node → Bool) (ext : List Node → Option (Str × Str))
        (fetch : UrlVal → FetchResult) (rows : List Row) (r : ArticleData),
      r ∈ (firstPass pw ext fetch rows).paywall_urls ↔
        ∃ row ∈ rows,
          r = process_single_article pw ext fetch row.article_url row.headline
              row.published_date ∧
          truthy r.full_content = false ∧
          hasSub (strL "Paywall") (strOfOpt r.error) = true) ∧
    firstPass ET.is_paywall_page ET.extract_article_content
        (fun _ => .reqErr (strL "connect to ProxyPaywallHost failed")) [rowC10]
      = ⟨[], [{ url := rowC10.article_url, headline := strL "h",
                published_date := strL "d",
                error := some (strL "Request error: connect to ProxyPaywallHost failed") }],
          []⟩ ∧
    (process_articles ET.is_paywall_page ET.extract_article_content
        (fun _ => .reqErr (strL "connect to ProxyPaywallHost failed"))
        (fun _ => .reqErr (strL "timeout")) [rowC10]).failed_urls
      = [{ url := rowC10.article_url, headline := strL "h", published_date := strL "d",
           error := some (strL "Request error: timeout") }] := by
  refine ⟨?_, by decide, by decide⟩
  intro pw ext fetch rows r
  have := foldl_route_pw_mem pw ext fetch rows ⟨[], [], []⟩ r
  simpa [firstPass] using this
